import Mathlib

/-!
Verification of the UniHive marketplace client (React + Supabase).

The data model mirrors the SQL schema of migration 20250302083747 and the
TypeScript interfaces in src/types/index.ts: rows are records, tables are
lists of rows, uuid columns are modelled as naturals and timestamptz columns
as naturals.  Each user-initiated handler is embedded as a pure function from
the relevant table state to either an error (the message surfaced via
setError) or the table state after the issued insert/update/delete, composed
with the row-level-security policy that guards the statement server side.
-/

namespace UniHive

/-- A row of the `profiles` table (migration 20250131121514; types/index.ts). -/
structure ProfileRow where
  id : Nat
  username : String
  full_name : String
  course : String
  created_at : Nat
  deriving Repr, DecidableEq

/-- An exact decimal: the value `num / 10 ^ scale`.  This models the
database's `numeric` column and the decimal strings the price form field
produces. -/
structure Decimal where
  num : Int
  scale : Nat
  deriving Repr, DecidableEq

/-- The rational value of a decimal. -/
def Decimal.toRat (d : Decimal) : ℚ :=
  (d.num : ℚ) / (10 : ℚ) ^ d.scale

/-- A decimal's value is nonpositive exactly when its mantissa is: the
denominator is a positive power of ten. -/
theorem Decimal.toRat_nonpos_iff (d : Decimal) :
    d.toRat ≤ 0 ↔ d.num ≤ 0 := by
  have hpow : (0 : ℚ) < (10 : ℚ) ^ d.scale := by positivity
  rw [Decimal.toRat, div_nonpos_iff]
  constructor
  · rintro (⟨_, h⟩ | ⟨h, _⟩)
    · exact absurd hpow (not_lt.mpr h)
    · exact_mod_cast h
  · intro h
    exact Or.inr ⟨by exact_mod_cast h, le_of_lt hpow⟩

/-- A row of the `products` table (migration 20250131121514; types/index.ts).
The `numeric` price column is modelled as an exact decimal. -/
structure Product where
  id : Nat
  title : String
  description : String
  price : Decimal
  category : String
  image_url : String
  condition : String
  seller_id : Nat
  created_at : Nat
  deriving Repr, DecidableEq

/-- A row of the `chats` table: a negotiation between the buyer and the
seller over one product; `status` is the text column holding `pending`,
`accepted`, `rejected` or `completed` (migration 20250302083747). -/
structure Chat where
  id : Nat
  product_id : Nat
  buyer_id : Nat
  seller_id : Nat
  status : String
  created_at : Nat
  deriving Repr, DecidableEq

/-- A row of the `messages` table (migration 20250302083747). -/
structure Message where
  id : Nat
  chat_id : Nat
  sender_id : Nat
  content : String
  created_at : Nat
  deriving Repr, DecidableEq

/-- A row of the `admins` table: an admin grant, optionally a master grant
(migration 20250302083747). -/
structure Admin where
  id : Nat
  is_master : Bool
  created_by : Nat
  created_at : Nat
  deriving Repr, DecidableEq

/-- The JavaScript String trim: strip whitespace from both ends. -/
def jsTrim (s : String) : String :=
  ⟨((s.data.dropWhile Char.isWhitespace).reverse.dropWhile
      Char.isWhitespace).reverse⟩

/-- The error taxonomy of failures surfaced to the user by the handlers:
validation failures carry the message passed to setError. -/
inductive MarketError where
  | validationError : String → MarketError
  | authorizationError : MarketError
  | stateError : MarketError
  | notFoundError : MarketError
  deriving Repr, DecidableEq

deriving instance DecidableEq for Except

/-! ### Negotiation creation (ProductDetail.tsx, handleBuyRequest) -/

/-- Embeds handleBuyRequest (ProductDetail.tsx 79-114): if the session user is
the product's seller the handler stops with "You can't buy your own product"
and inserts nothing; otherwise it inserts a chat row for this product with the
user as buyer, the product's seller as seller and status 'pending'.
`nextId`/`now` stand for the id and timestamp the database generates. -/
def handleBuyRequest (chats : List Chat) (nextId now : Nat) (product : Product)
    (userId : Nat) : Except MarketError (List Chat) :=
  if userId = product.seller_id then
    .error (.validationError "You can't buy your own product")
  else
    .ok (chats ++ [{ id := nextId, product_id := product.id, buyer_id := userId,
                     seller_id := product.seller_id, status := "pending",
                     created_at := now }])

/-! ### Negotiation status changes (Messages.tsx) -/

/-- Embeds the database statement issued by handleStatusChange
(Messages.tsx 187-217): update chats set status where id equals the selected
chat's id — only the status column of matching rows is written. -/
def updateChatStatus (chats : List Chat) (chatId : Nat) (status : String) :
    List Chat :=
  chats.map (fun c => if c.id = chatId then { c with status := status } else c)

/-- Embeds the seller-side Accept/Decline controls of the Messages page
(Messages.tsx 330-347): handleStatusChange is invoked with 'accepted' or
'rejected' only from buttons that are rendered when the session user is the
selected chat's seller and the chat's status is 'pending'; otherwise no update
is issued. -/
def acceptRejectStep (chats : List Chat) (chat : Chat) (actorId : Nat)
    (newStatus : String) : List Chat :=
  if chat.seller_id = actorId ∧ chat.status = "pending" ∧
      (newStatus = "accepted" ∨ newStatus = "rejected") then
    updateChatStatus chats chat.id newStatus
  else
    chats

/-! ### Messaging (Messages.tsx, handleSendMessage) -/

/-- Embeds handleSendMessage (Messages.tsx 157-181) composed with the
row-level-security policy "Chat participants can send messages"
(migration 20250302083747): the client skips the call when the trimmed
content is empty, and the insert of the trimmed content is accepted only when
the referenced chat exists, the sender is that chat's buyer or seller, and the
chat's status is 'accepted'.  The policy's two conjuncts are checked in their
textual order, so a failed participant test reports the authorization failure
and a failed status test the state failure. -/
def sendMessage (chats : List Chat) (msgs : List Message)
    (nextId chatId senderId : Nat) (content : String) (now : Nat) :
    Except MarketError (List Message) :=
  if jsTrim content = "" then
    .error (.validationError "empty message")
  else
    match chats.find? (fun c => c.id = chatId) with
    | none => .error .notFoundError
    | some c =>
      if senderId = c.buyer_id ∨ senderId = c.seller_id then
        if c.status = "accepted" then
          .ok (msgs ++ [{ id := nextId, chat_id := chatId, sender_id := senderId,
                          content := jsTrim content, created_at := now }])
        else
          .error .stateError
      else
        .error .authorizationError

/-! ### Admin management (AdminPortal component in ProductDetail.tsx) -/

/-- The number of master grants in an admins table state. -/
def masterCount (admins : List Admin) : Nat :=
  (admins.filter (fun a => a.is_master)).length

/-- The local part of an email: everything before the first '@'
(handleAddAdmin computes it as email.split of '@' at index 0). -/
def emailLocalPart (email : String) : String :=
  ⟨email.data.takeWhile (fun c => ¬ c = '@')⟩

/-- Embeds handleAddAdmin (AdminPortal in ProductDetail.tsx 417-484): an empty
email field makes the handler return without any write (the guard mirrors the
disabled Add button); otherwise the target member is resolved by matching the
email's local part against the unique profile username (the single-row query
fails when no profile, or more than one, matches); a target that already holds
an admin grant is reported as 'This user is already an admin' with no write;
otherwise a grant with is_master false and created_by the acting session user
is inserted. -/
def handleAddAdmin (profiles : List ProfileRow) (admins : List Admin)
    (newAdminEmail : String) (actorId now : Nat) :
    Except MarketError (List Admin) :=
  if newAdminEmail = "" then
    .ok admins
  else if emailLocalPart newAdminEmail = "" then
    .error (.validationError "Invalid email format")
  else
    match profiles.filter (fun p => p.username = emailLocalPart newAdminEmail) with
    | [target] =>
      if (admins.find? (fun a => a.id = target.id)).isSome then
        .error (.validationError "This user is already an admin")
      else
        .ok (admins ++ [{ id := target.id, is_master := false,
                          created_by := actorId, created_at := now }])
    | _ => .error (.validationError "User not found")

/-- Embeds handlePromoteAdmin (AdminPortal in ProductDetail.tsx 486-507):
update admins set is_master true where id equals the target. -/
def handlePromoteAdmin (admins : List Admin) (adminId : Nat) : List Admin :=
  admins.map (fun a => if a.id = adminId then { a with is_master := true } else a)

/-- The row update issued by handleDemoteAdmin when its guard passes:
update admins set is_master false where id equals the target. -/
def demoteUpdate (admins : List Admin) (adminId : Nat) : List Admin :=
  admins.map (fun a => if a.id = adminId then { a with is_master := false } else a)

/-- The row deletion issued by handleRemoveAdmin when its guard passes:
delete from admins where id equals the target. -/
def removeUpdate (admins : List Admin) (adminId : Nat) : List Admin :=
  admins.filter (fun a => ¬ a.id = adminId)

/-- Embeds handleDemoteAdmin (AdminPortal in ProductDetail.tsx 509-538): the
handler filters the loaded admins for master grants and stops with 'Cannot
demote the last master admin' when exactly one master grant remains and it
belongs to the target; otherwise it issues the demoting update. -/
def handleDemoteAdmin (admins : List Admin) (adminId : Nat) :
    Except MarketError (List Admin) :=
  if (admins.filter (fun a => a.is_master)).length = 1 ∧
      (admins.filter (fun a => a.is_master)).head?.map Admin.id = some adminId then
    .error (.validationError "Cannot demote the last master admin")
  else
    .ok (demoteUpdate admins adminId)

/-- Embeds handleRemoveAdmin (AdminPortal in ProductDetail.tsx 540-573): when
the target's grant is a master grant and exactly one master grant remains the
handler stops with 'Cannot remove the last master admin'; otherwise it deletes
the target's row. -/
def handleRemoveAdmin (admins : List Admin) (adminId : Nat) :
    Except MarketError (List Admin) :=
  if (admins.find? (fun a => a.id = adminId)).map Admin.is_master = some true ∧
      (admins.filter (fun a => a.is_master)).length = 1 then
    .error (.validationError "Cannot remove the last master admin")
  else
    .ok (removeUpdate admins adminId)

/-! ### Admin classification (App variants) -/

/-- Upsert on the admins table's id primary key: replace the existing row with
that id, or insert the row when none exists. -/
def upsertAdmin (admins : List Admin) (row : Admin) : List Admin :=
  if admins.any (fun a => a.id = row.id) then
    admins.map (fun a => if a.id = row.id then row else a)
  else
    admins ++ [row]

/-- Embeds checkIfAdmin of the primary App (unnamed/part_001 74-119), returning
the classification together with the admins table after its side effect: a
session whose email is the literal '21bcs6987@cuchd.in' is classified admin
unconditionally and a master grant for it is upserted; any other session is
classified by whether a grant row with the session user's id exists, with no
write to the admins table (the variant's profile-provisioning side effect
touches only the profiles table and is outside this model). -/
def checkIfAdminApp (admins : List Admin) (userId : Nat) (email : String)
    (now : Nat) : Bool × List Admin :=
  if email = "21bcs6987@cuchd.in" then
    (true, upsertAdmin admins { id := userId, is_master := true,
                                created_by := userId, created_at := now })
  else
    match admins.find? (fun a => a.id = userId) with
    | some _ => (true, admins)
    | none => (false, admins)

/-- Embeds checkIfAdmin of the secondary App (unnamed/part_002 42-47): when the
session carries an email the flag becomes the comparison with the literal
'21bcs6987@cuchd.in'; with no email the previous flag is kept.  The stored
grants are not consulted at all. -/
def checkIfAdminSimple (email : Option String) (prev : Bool) : Bool :=
  match email with
  | some e => e = "21bcs6987@cuchd.in"
  | none => prev

/-! ### Identity gate (Login.tsx and lib/supabase, unnamed/part_000) -/

/-- Embeds isValidCUEmail (unnamed/part_000 14-16): the institutional-domain
test is whether the email ends with the literal '@cuchd.in'. -/
def isValidCUEmail (email : String) : Bool :=
  List.isSuffixOf "@cuchd.in".data email.data

/-- The identity-service call (if any) a Login submission issues.
`rejectedDomain` is the early return that surfaces the domain validation
message without contacting the service. -/
inductive AuthAction where
  | rejectedDomain : String → AuthAction
  | signUp : String → String → AuthAction
  | resetPassword : String → AuthAction
  | signIn : String → String → AuthAction
  deriving Repr, DecidableEq

/-- Whether an AuthAction contacts the identity service: every branch of the
Login handler except the early domain rejection issues a supabase.auth call. -/
def contactsIdentityService : AuthAction → Bool
  | .rejectedDomain _ => false
  | .signUp _ _ => true
  | .resetPassword _ => true
  | .signIn _ _ => true

/-- Embeds handleSubmit (Login.tsx 14-69) as the identity-service call the
submission issues: unless the admin login toggle is on, an email failing
isValidCUEmail stops the handler with 'Please use your @cuchd.in email
address' before any service call; otherwise signup mode (outside admin login)
signs up, forgot mode requests a password reset, and every remaining case
signs in. -/
def handleSubmit (mode : String) (isAdminLogin : Bool)
    (email password : String) : AuthAction :=
  if ¬ isAdminLogin ∧ ¬ isValidCUEmail email then
    .rejectedDomain "Please use your @cuchd.in email address"
  else if mode = "signup" ∧ ¬ isAdminLogin then
    .signUp email password
  else if mode = "forgot" then
    .resetPassword email
  else
    .signIn email password

/-! ### Listing creation (NewListing page, unnamed/part_003; inline variant,
unnamed/part_002) -/

/-- The numeric value of a digit list read left to right. -/
def digitsToNat (ds : List Char) : Nat :=
  ds.foldl (fun acc c => 10 * acc + (c.toNat - 48)) 0

/-- Models the JavaScript parseFloat on the plain decimal forms the price
input produces: an optional sign, an integer digit run and an optional
fractional digit run, read as the exact decimal whose mantissa is the digit
runs concatenated and whose scale is the fractional run's length; `none`
models NaN (no digit parsed).  Exponents, whitespace and other prefixes never
reach the handler through the numeric form field and are not modelled. -/
def parseFloat (s : String) : Option Decimal :=
  let signed : Int × List Char :=
    match s.data with
    | '-' :: rest => (-1, rest)
    | '+' :: rest => (1, rest)
    | cs => (1, cs)
  let intDigits := signed.2.takeWhile Char.isDigit
  let afterInt := signed.2.dropWhile Char.isDigit
  let fracDigits :=
    match afterInt with
    | '.' :: rest => rest.takeWhile Char.isDigit
    | _ => []
  if intDigits.isEmpty ∧ fracDigits.isEmpty then
    none
  else
    some { num := signed.1 * (digitsToNat (intDigits ++ fracDigits) : Int),
           scale := fracDigits.length }

/-- The form state of a listing submission: every field as the raw string
(the price exactly as typed). -/
structure ListingForm where
  title : String
  description : String
  price : String
  category : String
  condition : String
  imageUrl : String
  deriving Repr, DecidableEq

/-- Embeds handleSubmit of the NewListing page (unnamed/part_003 79-129): a
missing required field stops with 'Please fill in all required fields', a
missing image with 'Please upload an image', and a price that parses to NaN or
to a value not strictly positive with 'Please enter a valid price'; only then
is the product row inserted.  The nonpositivity test is on the mantissa, which
by Decimal.toRat_nonpos_iff agrees with the handler's test on the value. -/
def newListingSubmit (products : List Product) (f : ListingForm)
    (sellerId nextId now : Nat) : Except MarketError (List Product) :=
  if f.title = "" ∨ f.description = "" ∨ f.price = "" ∨ f.category = "" ∨
      f.condition = "" then
    .error (.validationError "Please fill in all required fields")
  else if f.imageUrl = "" then
    .error (.validationError "Please upload an image")
  else
    match parseFloat f.price with
    | none => .error (.validationError "Please enter a valid price")
    | some v =>
      if v.num ≤ 0 then
        .error (.validationError "Please enter a valid price")
      else
        .ok (products ++ [{ id := nextId, title := f.title,
                            description := f.description, price := v,
                            category := f.category, image_url := f.imageUrl,
                            condition := f.condition, seller_id := sellerId,
                            created_at := now }])

/-- Embeds handleSubmit of the inline NewListing component of the secondary
App (unnamed/part_002 202-244): only the presence of title, description,
price string, category and image URL is checked ('Please fill all required
fields'), and the product is inserted with the parseFloat of the price string
without any NaN or positivity test.  A NaN price serialises to null and is
refused by the numeric NOT NULL column, modelled as the surfaced upstream
error. -/
def newListingSubmitAlt (products : List Product) (f : ListingForm)
    (sellerId nextId now : Nat) : Except MarketError (List Product) :=
  if f.title = "" ∨ f.description = "" ∨ f.price = "" ∨ f.category = "" ∨
      f.imageUrl = "" then
    .error (.validationError "Please fill all required fields")
  else
    match parseFloat f.price with
    | none => .error (.validationError "null value in column price")
    | some v =>
      .ok (products ++ [{ id := nextId, title := f.title,
                          description := f.description, price := v,
                          category := f.category, image_url := f.imageUrl,
                          condition := f.condition, seller_id := sellerId,
                          created_at := now }])

/-! ### Listing browse and filter (HomePage.tsx) -/

/-- Whether `pat` occurs inside `s` (the JavaScript String includes). -/
def containsSub (s pat : List Char) : Bool :=
  (List.range (s.length + 1)).any
    (fun i => List.isPrefixOf pat (s.drop i))

/-- The JavaScript toLowerCase, character by character. -/
def lowerChars (s : String) : List Char :=
  s.data.map Char.toLower

/-- Embeds the filteredProducts predicate (HomePage.tsx 51-58): the search
term must occur case-insensitively in the title or the description, and when a
category is selected (non-empty) the product's category must equal it. -/
def matchesFilter (term cat : String) (p : Product) : Bool :=
  (containsSub (lowerChars p.title) (lowerChars term) ||
    containsSub (lowerChars p.description) (lowerChars term)) &&
  (if cat = "" then true else p.category = cat)

/-- Keys the descending creation-time order: later rows first. -/
def newerFirst (p q : Product) : Prop :=
  q.created_at ≤ p.created_at

instance : DecidableRel newerFirst := fun p q =>
  inferInstanceAs (Decidable (q.created_at ≤ p.created_at))

/-- Embeds fetchProducts composed with the render-time filter
(HomePage.tsx 24-58): the products query orders by created_at descending
(modelled as an insertion sort by newerFirst) and the page then narrows the
rows with matchesFilter. -/
def homePageList (products : List Product) (term cat : String) : List Product :=
  (products.insertionSort newerFirst).filter (matchesFilter term cat)

/-! ### Helper lemmas -/

instance : IsTotal Product newerFirst :=
  ⟨fun p q => (le_total q.created_at p.created_at).imp id id⟩

instance : IsTrans Product newerFirst :=
  ⟨fun _ _ _ h1 h2 => le_trans h2 h1⟩

/-- The empty pattern occurs in every string. -/
theorem containsSub_nil (s : List Char) : containsSub s [] = true := by
  unfold containsSub
  rw [List.any_eq_true]
  refine ⟨0, by simp, ?_⟩
  cases s <;> rfl

/-- A nodup list whose members all equal `x` has at most one member. -/
theorem length_le_one_of_nodup_all_eq {α : Type} {l : List α} {x : α}
    (hn : l.Nodup) (h : ∀ y ∈ l, y = x) : l.length ≤ 1 := by
  match l with
  | [] => simp
  | [a] => simp
  | a :: b :: t =>
    exfalso
    have ha : a = x := h a (by simp)
    have hb : b = x := h b (by simp)
    exact (List.nodup_cons.mp hn).1 (by simp [ha, hb])

/-! ### C4: negotiation creation -/

/-- C4: for every listing and buyer, creating a negotiation with the buyer
equal to the listing's seller is rejected (self-trade forbidden), and a
successful create appends exactly one new negotiation whose status is
'pending', with the requesting user as buyer and the listing's seller as
seller. -/
theorem buyRequest_guarded (chats : List Chat) (nextId now : Nat)
    (p : Product) (u : Nat) :
    (u = p.seller_id →
      handleBuyRequest chats nextId now p u =
        .error (.validationError "You can't buy your own product")) ∧
    (¬ u = p.seller_id →
      ∃ c, handleBuyRequest chats nextId now p u = .ok (chats ++ [c]) ∧
        c.status = "pending" ∧ c.buyer_id = u ∧ c.product_id = p.id ∧
        c.seller_id = p.seller_id) := by
  constructor
  · intro h
    simp [handleBuyRequest, h]
  · intro h
    refine ⟨{ id := nextId, product_id := p.id, buyer_id := u,
              seller_id := p.seller_id, status := "pending",
              created_at := now }, ?_, rfl, rfl, rfl, rfl⟩
    simp [handleBuyRequest, h]

/-- Witness for C4 at a concrete listing: the seller's own request is refused
and a stranger's request creates a pending negotiation. -/
theorem buyRequest_guarded_witness :
    handleBuyRequest [] 1 2 ⟨1, "Book", "d", ⟨5, 0⟩, "Textbooks", "u", "new", 9, 0⟩ 9 =
      .error (.validationError "You can't buy your own product") ∧
    ∃ c, handleBuyRequest [] 1 2 ⟨1, "Book", "d", ⟨5, 0⟩, "Textbooks", "u", "new", 9, 0⟩ 5 =
        .ok ([] ++ [c]) ∧
      c.status = "pending" ∧ c.buyer_id = 5 ∧ c.product_id = 1 ∧ c.seller_id = 9 :=
  ⟨(buyRequest_guarded [] 1 2 ⟨1, "Book", "d", ⟨5, 0⟩, "Textbooks", "u", "new", 9, 0⟩ 9).1 rfl,
   (buyRequest_guarded [] 1 2 ⟨1, "Book", "d", ⟨5, 0⟩, "Textbooks", "u", "new", 9, 0⟩ 5).2
     (by decide)⟩

/-! ### C10: frame property of accept/reject -/

/-- C10: the update issued by a successful accept or reject rewrites, row for
row, only the status column of the negotiation with the selected id: its
product, buyer, seller and creation-timestamp columns are kept, and every row
with a different id is kept entirely unchanged. -/
theorem statusUpdate_frame (chats : List Chat) (chatId : Nat) (s : String) :
    List.Forall₂ (fun c c' =>
        c'.id = c.id ∧ c'.product_id = c.product_id ∧ c'.buyer_id = c.buyer_id ∧
        c'.seller_id = c.seller_id ∧ c'.created_at = c.created_at ∧
        (¬ c.id = chatId → c' = c) ∧ (c.id = chatId → c'.status = s))
      chats (updateChatStatus chats chatId s) := by
  induction chats with
  | nil => exact List.Forall₂.nil
  | cons c t ih =>
    refine List.Forall₂.cons ?_ ih
    by_cases h : c.id = chatId <;> simp [h]

/-! ### C8: listing browse ordering and narrowing -/

/-- C8: the home-page listing view returns the stored listings ordered
newest-first by creation timestamp; a listing appears exactly when the
search term occurs case-insensitively in its title or description and, when a
category is selected, its category equals the selection; with no filter the
view is a permutation of the whole store. -/
theorem homePage_list_spec (products : List Product) (term cat : String) :
    List.Sorted newerFirst (homePageList products term cat) ∧
    (∀ p, p ∈ homePageList products term cat ↔
      (p ∈ products ∧
        (containsSub (lowerChars p.title) (lowerChars term) = true ∨
          containsSub (lowerChars p.description) (lowerChars term) = true) ∧
        (¬ cat = "" → p.category = cat))) ∧
    (homePageList products "" "").Perm products := by
  refine ⟨?_, ?_, ?_⟩
  · exact (List.sorted_insertionSort newerFirst products).sublist
      (List.filter_sublist _)
  · intro p
    unfold homePageList
    rw [List.mem_filter, (products.perm_insertionSort newerFirst).mem_iff]
    unfold matchesFilter
    by_cases hc : cat = "" <;>
      simp [hc, and_assoc, Bool.or_eq_true, Bool.and_eq_true]
  · have hall : ∀ p ∈ products.insertionSort newerFirst,
        matchesFilter "" "" p = true := by
      intro p _
      unfold matchesFilter
      simp [lowerChars, containsSub_nil]
    unfold homePageList
    rw [List.filter_eq_self.mpr hall]
    exact products.perm_insertionSort newerFirst

/-! ### C2: negotiation state machine -/

/-- C2: along the implemented operations the only status transitions are
create into 'pending' and, performed by the negotiation's seller on a
'pending' negotiation, the change to 'accepted' or 'rejected'; an accept or
reject attempted by a non-seller or from a non-pending state leaves every
negotiation unchanged, so no transition re-opens a rejected or accepted
negotiation. -/
theorem negotiation_state_machine :
    (∀ (chats : List Chat), (chats.map Chat.id).Nodup →
      ∀ chat ∈ chats, ∀ (actorId : Nat) (newStatus : String),
      ∀ c ∈ chats, ∀ c' ∈ acceptRejectStep chats chat actorId newStatus,
        c'.id = c.id →
          c' = c ∨
            (c.status = "pending" ∧ c.seller_id = actorId ∧
              (newStatus = "accepted" ∨ newStatus = "rejected") ∧
              c' = { c with status := newStatus })) ∧
    (∀ (st : List Chat) (nextId now : Nat) (p : Product) (u : Nat)
        (st' : List Chat), handleBuyRequest st nextId now p u = .ok st' →
      ∃ c, st' = st ++ [c] ∧ c.status = "pending") := by
  constructor
  · intro chats hids chat hchat actorId newStatus c hc c' hc' hid
    unfold acceptRejectStep at hc'
    by_cases hg : chat.seller_id = actorId ∧ chat.status = "pending" ∧
        (newStatus = "accepted" ∨ newStatus = "rejected")
    · rw [if_pos hg] at hc'
      unfold updateChatStatus at hc'
      obtain ⟨c0, hc0, hc0eq⟩ := List.mem_map.mp hc'
      by_cases hid0 : c0.id = chat.id
      · rw [if_pos hid0] at hc0eq
        have hc0c : c0 = c := by
          apply List.inj_on_of_nodup_map hids hc0 hc
          rw [← hid, ← hc0eq]
        have hc0chat : c0 = chat :=
          List.inj_on_of_nodup_map hids hc0 hchat hid0
        right
        subst hc0c
        refine ⟨?_, ?_, hg.2.2, hc0eq.symm⟩
        · rw [hc0chat]
          exact hg.2.1
        · rw [hc0chat]
          exact hg.1
      · rw [if_neg hid0] at hc0eq
        subst hc0eq
        left
        exact List.inj_on_of_nodup_map hids hc0 hc hid
    · rw [if_neg hg] at hc'
      left
      exact List.inj_on_of_nodup_map hids hc' hc hid
  · intro st nextId now p u st' h
    unfold handleBuyRequest at h
    by_cases hu : u = p.seller_id
    · rw [if_pos hu] at h
      exact absurd h (by simp)
    · rw [if_neg hu] at h
      exact ⟨_, (Except.ok.injEq _ _).mp h |>.symm, rfl⟩



/-- Witness for C2: on a one-negotiation store, an accept by the seller is the
pending-to-accepted transition, and a concrete buy request creates a pending
negotiation. -/
theorem negotiation_state_machine_witness :
    ((⟨1, 2, 3, 4, "accepted", 0⟩ : Chat) = ⟨1, 2, 3, 4, "pending", 0⟩ ∨
      ((⟨1, 2, 3, 4, "pending", 0⟩ : Chat).status = "pending" ∧
        (⟨1, 2, 3, 4, "pending", 0⟩ : Chat).seller_id = 4 ∧
        ("accepted" = "accepted" ∨ "accepted" = "rejected") ∧
        (⟨1, 2, 3, 4, "accepted", 0⟩ : Chat) =
          { (⟨1, 2, 3, 4, "pending", 0⟩ : Chat) with status := "accepted" })) ∧
    ∃ c, [⟨9, 1, 5, 9, "pending", 7⟩] = ([] : List Chat) ++ [c] ∧
      c.status = "pending" :=
  ⟨negotiation_state_machine.1 [⟨1, 2, 3, 4, "pending", 0⟩] (by decide)
      ⟨1, 2, 3, 4, "pending", 0⟩ (by decide) 4 "accepted"
      ⟨1, 2, 3, 4, "pending", 0⟩ (by decide)
      ⟨1, 2, 3, 4, "accepted", 0⟩ (by decide) (by decide),
   negotiation_state_machine.2 [] 9 7 ⟨1, "Book", "d", ⟨5, 0⟩, "T", "u", "new", 9, 0⟩
      5 [⟨9, 1, 5, 9, "pending", 7⟩] (by decide)⟩

/-! ### C1: messaging guard -/

/-- C1: with non-empty trimmed content and an existing referenced negotiation,
a send succeeds exactly when the negotiation's status is 'accepted' and the
sender is its buyer or seller; a send by a non-participant is refused as the
authorization failure, a send by a participant outside the 'accepted' state as
the state failure, and a successful send appends exactly the trimmed
message. -/
theorem send_guarded (chats : List Chat) (msgs : List Message)
    (nextId chatId senderId : Nat) (content : String) (now : Nat) (c : Chat)
    (hne : ¬ jsTrim content = "")
    (hfind : chats.find? (fun ch => ch.id = chatId) = some c) :
    ((∃ l, sendMessage chats msgs nextId chatId senderId content now = .ok l) ↔
      (c.status = "accepted" ∧ (senderId = c.buyer_id ∨ senderId = c.seller_id))) ∧
    (¬ (senderId = c.buyer_id ∨ senderId = c.seller_id) →
      sendMessage chats msgs nextId chatId senderId content now =
        .error .authorizationError) ∧
    ((senderId = c.buyer_id ∨ senderId = c.seller_id) → ¬ c.status = "accepted" →
      sendMessage chats msgs nextId chatId senderId content now =
        .error .stateError) ∧
    (∀ l, sendMessage chats msgs nextId chatId senderId content now = .ok l →
      l = msgs ++ [{ id := nextId, chat_id := chatId, sender_id := senderId,
                     content := jsTrim content, created_at := now }]) := by
  unfold sendMessage
  rw [if_neg hne]
  simp only [hfind]
  by_cases hpart : senderId = c.buyer_id ∨ senderId = c.seller_id
  · by_cases hacc : c.status = "accepted"
    · rw [if_pos hpart, if_pos hacc]
      refine ⟨⟨fun _ => ⟨hacc, hpart⟩, fun _ => ⟨_, rfl⟩⟩, ?_, ?_, ?_⟩
      · intro h
        exact absurd hpart h
      · intro _ h
        exact absurd hacc h
      · intro l hl
        exact ((Except.ok.injEq _ _).mp hl).symm
    · rw [if_pos hpart, if_neg hacc]
      refine ⟨⟨?_, ?_⟩, ?_, ?_, ?_⟩
      · rintro ⟨l, hl⟩
        exact absurd hl (by simp)
      · rintro ⟨h, _⟩
        exact absurd h hacc
      · intro h
        exact absurd hpart h
      · intro _ _
        rfl
      · intro l hl
        exact absurd hl (by simp)
  · rw [if_neg hpart]
    refine ⟨⟨?_, ?_⟩, ?_, ?_, ?_⟩
    · rintro ⟨l, hl⟩
      exact absurd hl (by simp)
    · rintro ⟨_, h⟩
      exact absurd h hpart
    · intro _
      rfl
    · intro h
      exact absurd h hpart
    · intro l hl
      exact absurd hl (by simp)

/-- Witness for C1 on a concrete negotiation: a participant's send in the
accepted state succeeds with the trimmed message stored, a participant's send
in the pending state is the state failure, and a stranger's send is the
authorization failure. -/
theorem send_guarded_witness :
    sendMessage [⟨1, 2, 3, 4, "accepted", 0⟩] [] 7 1 3 " hi " 9 =
      .ok [⟨7, 1, 3, "hi", 9⟩] ∧
    sendMessage [⟨1, 2, 3, 4, "pending", 0⟩] [] 7 1 3 "hi" 9 =
      .error .stateError ∧
    sendMessage [⟨1, 2, 3, 4, "accepted", 0⟩] [] 7 1 5 "hi" 9 =
      .error .authorizationError := by
  refine ⟨?_, ?_, ?_⟩
  · obtain ⟨l, hl⟩ :=
      (send_guarded [⟨1, 2, 3, 4, "accepted", 0⟩] [] 7 1 3 " hi " 9
        ⟨1, 2, 3, 4, "accepted", 0⟩ (by decide) (by decide)).1.mpr
        ⟨rfl, Or.inl rfl⟩
    have hform :=
      (send_guarded [⟨1, 2, 3, 4, "accepted", 0⟩] [] 7 1 3 " hi " 9
        ⟨1, 2, 3, 4, "accepted", 0⟩ (by decide) (by decide)).2.2.2 l hl
    rw [hform] at hl
    exact hl
  · exact (send_guarded [⟨1, 2, 3, 4, "pending", 0⟩] [] 7 1 3 "hi" 9
      ⟨1, 2, 3, 4, "pending", 0⟩ (by decide) (by decide)).2.2.1
      (Or.inl rfl) (by decide)
  · exact (send_guarded [⟨1, 2, 3, 4, "accepted", 0⟩] [] 7 1 5 "hi" 9
      ⟨1, 2, 3, 4, "accepted", 0⟩ (by decide) (by decide)).2.1 (by decide)

/-! ### C5: institutional-domain gate on login -/

/-- C5: outside the administrative login path, a submission whose email fails
the institutional-domain test is stopped with the domain validation message
and no identity-service call is issued; every submission that does reach the
identity service passed the domain test; the administrative login path never
hits the domain rejection. -/
theorem login_domain_gate (mode : String) (isAdminLogin : Bool)
    (email password : String) :
    (isAdminLogin = false → isValidCUEmail email = false →
      handleSubmit mode isAdminLogin email password =
        .rejectedDomain "Please use your @cuchd.in email address" ∧
      contactsIdentityService (handleSubmit mode isAdminLogin email password) =
        false) ∧
    (isAdminLogin = false →
      contactsIdentityService (handleSubmit mode isAdminLogin email password) =
        true → isValidCUEmail email = true) ∧
    (isAdminLogin = true →
      ∀ msg, ¬ handleSubmit mode isAdminLogin email password =
        .rejectedDomain msg) := by
  refine ⟨?_, ?_, ?_⟩
  · intro hadm hdom
    subst hadm
    unfold handleSubmit
    rw [if_pos ⟨by simp, by simp [hdom]⟩]
    exact ⟨rfl, rfl⟩
  · intro hadm hsvc
    subst hadm
    by_cases hdom : isValidCUEmail email = true
    · exact hdom
    · exfalso
      rw [Bool.not_eq_true] at hdom
      unfold handleSubmit at hsvc
      rw [if_pos ⟨by simp, by simp [hdom]⟩] at hsvc
      exact absurd hsvc (by simp [contactsIdentityService])
  · intro hadm msg
    subst hadm
    unfold handleSubmit
    rw [if_neg (by simp)]
    by_cases hmode : mode = "signup" ∧ ¬ (true : Bool) = true
    · exact absurd hmode.2 (by simp)
    · rw [if_neg hmode]
      by_cases hforgot : mode = "forgot"
      · rw [if_pos hforgot]
        simp
      · rw [if_neg hforgot]
        simp

/-- Witness for C5 at concrete submissions: a non-institutional email is
domain-rejected without an identity-service call, a submission that signs in
has an institutional email, and the admin path is never domain-rejected. -/
theorem login_domain_gate_witness :
    (handleSubmit "signin" false "x@gmail.com" "pw" =
        .rejectedDomain "Please use your @cuchd.in email address" ∧
      contactsIdentityService (handleSubmit "signin" false "x@gmail.com" "pw") =
        false) ∧
    isValidCUEmail "a@cuchd.in" = true ∧
    (∀ msg, ¬ handleSubmit "signin" true "x@gmail.com" "pw" =
      .rejectedDomain msg) :=
  ⟨(login_domain_gate "signin" false "x@gmail.com" "pw").1 rfl (by decide),
   (login_domain_gate "signin" false "a@cuchd.in" "pw").2.1 rfl (by decide),
   (login_domain_gate "signin" true "x@gmail.com" "pw").2.2 rfl⟩

/-! ### C9: addAdmin grants are never master grants -/

/-- C9: every grant a successful addAdmin leaves in the table either was
already there or is the freshly inserted non-master grant recorded as created
by the acting admin; when the resolved target already holds a grant the
handler stops with the already-an-admin message and writes nothing; and the
promote operation is what turns an existing grant into a master grant. -/
theorem addAdmin_nonmaster (profiles : List ProfileRow) (admins : List Admin)
    (email : String) (actorId now : Nat) :
    (∀ l, handleAddAdmin profiles admins email actorId now = .ok l →
      ∀ a ∈ l, a ∈ admins ∨
        (a.is_master = false ∧ a.created_by = actorId ∧ a.created_at = now)) ∧
    (∀ target, ¬ email = "" → ¬ emailLocalPart email = "" →
      profiles.filter (fun p => p.username = emailLocalPart email) = [target] →
      (∃ a ∈ admins, a.id = target.id) →
      handleAddAdmin profiles admins email actorId now =
        .error (.validationError "This user is already an admin")) ∧
    (∀ adminId, ∀ a ∈ admins, a.id = adminId →
      { a with is_master := true } ∈ handlePromoteAdmin admins adminId) := by
  refine ⟨?_, ?_, ?_⟩
  · intro l hl a ha
    unfold handleAddAdmin at hl
    split at hl
    · rw [← (Except.ok.injEq _ _).mp hl] at ha
      exact Or.inl ha
    · split at hl
      · exact absurd hl (by simp)
      · split at hl
        · split at hl
          · exact absurd hl (by simp)
          · rw [← (Except.ok.injEq _ _).mp hl] at ha
            rcases List.mem_append.mp ha with h | h
            · exact Or.inl h
            · right
              rw [List.mem_singleton.mp h]
              exact ⟨rfl, rfl, rfl⟩
        · exact absurd hl (by simp)
  · intro target hemail hlp hfil hexists
    obtain ⟨a, ha, haid⟩ := hexists
    have hex : (admins.find? (fun x => x.id = target.id)).isSome = true :=
      List.find?_isSome.mpr ⟨a, ha, by simp [haid]⟩
    unfold handleAddAdmin
    rw [if_neg hemail, if_neg hlp, hfil]
    simp [hex]
  · intro adminId a ha haid
    unfold handlePromoteAdmin
    exact List.mem_map.mpr ⟨a, ha, by rw [if_pos haid]⟩

/-- Witness for C9 at a concrete store: the inserted grant is the non-master
grant for the resolved member, a second addAdmin for the same member is
refused, and promote turns the grant into a master grant. -/
theorem addAdmin_nonmaster_witness :
    (∀ a ∈ [(⟨7, false, 1, 5⟩ : Admin)], a ∈ ([] : List Admin) ∨
      (a.is_master = false ∧ a.created_by = 1 ∧ a.created_at = 5)) ∧
    handleAddAdmin [⟨7, "alice", "Alice", "c", 0⟩] [⟨7, false, 1, 5⟩]
        "alice@cuchd.in" 1 6 =
      .error (.validationError "This user is already an admin") ∧
    { (⟨7, false, 1, 5⟩ : Admin) with is_master := true } ∈
      handlePromoteAdmin [⟨7, false, 1, 5⟩] 7 :=
  ⟨(addAdmin_nonmaster [⟨7, "alice", "Alice", "c", 0⟩] [] "alice@cuchd.in" 1 5).1
      [⟨7, false, 1, 5⟩] (by decide),
   (addAdmin_nonmaster [⟨7, "alice", "Alice", "c", 0⟩] [⟨7, false, 1, 5⟩]
      "alice@cuchd.in" 1 6).2.1 ⟨7, "alice", "Alice", "c", 0⟩ (by decide)
      (by decide) (by decide) ⟨⟨7, false, 1, 5⟩, by decide, rfl⟩,
   (addAdmin_nonmaster [] [⟨7, false, 1, 5⟩] "" 1 6).2.2 7 ⟨7, false, 1, 5⟩
      (by decide) rfl⟩

/-! ### C6: admin classification and the hardcoded email -/

/-- A freshly upserted row is present after the upsert. -/
theorem upsertAdmin_mem (admins : List Admin) (row : Admin) :
    row ∈ upsertAdmin admins row := by
  unfold upsertAdmin
  by_cases h : admins.any (fun a => a.id = row.id) = true
  · rw [if_pos h]
    obtain ⟨a, ha, haid⟩ := List.any_eq_true.mp h
    exact List.mem_map.mpr ⟨a, ha, by simp at haid; simp [haid]⟩
  · rw [if_neg h]
    exact List.mem_append.mpr (Or.inr (by simp))

/-- C6 counterexample: for a session whose email is not the hardcoded literal
but whose user holds a stored master grant, the primary App's check classifies
by the grant while the secondary App's check reports non-admin without
consulting the grants at all — so, over the cited code, admin status of
non-hardcoded sessions is not always determined by the AdminGrant records. -/
theorem checkIfAdmin_variants_disagree :
    (checkIfAdminApp [⟨5, true, 5, 0⟩] 5 "someone@cuchd.in" 9).1 = true ∧
    checkIfAdminSimple (some "someone@cuchd.in") false = false := by
  decide

/-- C6 (amended): a session with the hardcoded email is classified admin by
both implementations regardless of the stored grants, and the primary App
also upserts a master grant for it; in the primary App every other session's
classification is exactly the lookup of the session user's grant, with the
grants left unchanged. -/
theorem checkIfAdmin_hardcoded_bypass (admins : List Admin) (userId : Nat)
    (email : String) (now : Nat) (prev : Bool) :
    (email = "21bcs6987@cuchd.in" →
      (checkIfAdminApp admins userId email now).1 = true ∧
      { id := userId, is_master := true, created_by := userId,
        created_at := now } ∈ (checkIfAdminApp admins userId email now).2 ∧
      checkIfAdminSimple (some email) prev = true) ∧
    (¬ email = "21bcs6987@cuchd.in" →
      (checkIfAdminApp admins userId email now).1 =
        (admins.find? (fun a => a.id = userId)).isSome ∧
      (checkIfAdminApp admins userId email now).2 = admins) := by
  constructor
  · intro h
    unfold checkIfAdminApp checkIfAdminSimple
    rw [if_pos h]
    exact ⟨rfl, upsertAdmin_mem admins _, by simp [h]⟩
  · intro h
    unfold checkIfAdminApp
    rw [if_neg h]
    match hfind : admins.find? (fun a => a.id = userId) with
    | some a => exact ⟨by simp [hfind], by simp [hfind]⟩
    | none => exact ⟨by simp [hfind], by simp [hfind]⟩

/-- Witness for the amended C6 at concrete sessions: the hardcoded email is
classified master admin over an empty grant table, and a non-hardcoded
session is classified by its grant lookup with the table unchanged. -/
theorem checkIfAdmin_hardcoded_bypass_witness :
    ((checkIfAdminApp [] 3 "21bcs6987@cuchd.in" 9).1 = true ∧
      { id := 3, is_master := true, created_by := 3, created_at := 9 } ∈
        (checkIfAdminApp [] 3 "21bcs6987@cuchd.in" 9).2 ∧
      checkIfAdminSimple (some "21bcs6987@cuchd.in") false = true) ∧
    ((checkIfAdminApp [⟨5, false, 5, 0⟩] 5 "someone@cuchd.in" 9).1 =
        (([⟨5, false, 5, 0⟩] : List Admin).find? (fun a => a.id = 5)).isSome ∧
      (checkIfAdminApp [⟨5, false, 5, 0⟩] 5 "someone@cuchd.in" 9).2 =
        [⟨5, false, 5, 0⟩]) :=
  ⟨(checkIfAdmin_hardcoded_bypass [] 3 "21bcs6987@cuchd.in" 9 false).1 rfl,
   (checkIfAdmin_hardcoded_bypass [⟨5, false, 5, 0⟩] 5 "someone@cuchd.in" 9
      false).2 (by decide)⟩

/-! ### C3: last-master protection -/

/-- Demoting `t` leaves zero masters exactly when every master grant belongs
to `t`. -/
theorem masterCount_demoteUpdate_eq_zero_iff (admins : List Admin) (t : Nat) :
    masterCount (demoteUpdate admins t) = 0 ↔
      ∀ a ∈ admins, a.is_master = true → a.id = t := by
  unfold masterCount demoteUpdate
  rw [List.length_eq_zero, List.filter_eq_nil_iff]
  constructor
  · intro h a ha hma
    by_contra hne
    exact h a (List.mem_map.mpr ⟨a, ha, by simp [hne]⟩) (by simp [hma])
  · intro h x hx
    obtain ⟨a, ha, rfl⟩ := List.mem_map.mp hx
    by_cases hid : a.id = t
    · simp [hid]
    · simp only [if_neg hid]
      intro hma
      exact hid (h a ha (by simpa using hma))

/-- Removing `t` leaves zero masters exactly when every master grant belongs
to `t`. -/
theorem masterCount_removeUpdate_eq_zero_iff (admins : List Admin) (t : Nat) :
    masterCount (removeUpdate admins t) = 0 ↔
      ∀ a ∈ admins, a.is_master = true → a.id = t := by
  unfold masterCount removeUpdate
  rw [List.length_eq_zero, List.filter_eq_nil_iff]
  constructor
  · intro h a ha hma
    by_contra hne
    exact h a (List.mem_filter.mpr ⟨ha, by simp [hne]⟩) (by simp [hma])
  · intro h a ha hma
    obtain ⟨ha0, hne⟩ := List.mem_filter.mp ha
    have hne2 : ¬ a.id = t := by simpa using hne
    exact hne2 (h a ha0 (by simpa using hma))

/-- Over a table with distinct ids and at least one master grant, all masters
belonging to `t` is the same as the handler's guard: the master filter is a
one-element list headed by a grant with id `t`. -/
theorem masters_singleton_iff (admins : List Admin) (t : Nat)
    (hids : (admins.map Admin.id).Nodup) (hm : 0 < masterCount admins) :
    (∀ a ∈ admins, a.is_master = true → a.id = t) ↔
      ((admins.filter (fun a => a.is_master)).length = 1 ∧
        (admins.filter (fun a => a.is_master)).head?.map Admin.id = some t) := by
  constructor
  · intro h
    have hsub : (admins.filter (fun a => a.is_master)).Sublist admins :=
      List.filter_sublist admins
    have hnodupM : ((admins.filter (fun a => a.is_master)).map Admin.id).Nodup :=
      hids.sublist (hsub.map Admin.id)
    have hall : ∀ y ∈ (admins.filter (fun a => a.is_master)).map Admin.id,
        y = t := by
      rintro y hy
      obtain ⟨a, haM, rfl⟩ := List.mem_map.mp hy
      obtain ⟨ha, hma⟩ := List.mem_filter.mp haM
      exact h a ha (by simpa using hma)
    have hle := length_le_one_of_nodup_all_eq hnodupM hall
    rw [List.length_map] at hle
    have h1 : (admins.filter (fun a => a.is_master)).length = 1 :=
      le_antisymm hle hm
    obtain ⟨m, hMeq⟩ := List.length_eq_one.mp h1
    have hmM : m ∈ admins.filter (fun a => a.is_master) := by
      rw [hMeq]
      exact List.mem_singleton.mpr rfl
    obtain ⟨hma, hmm⟩ := List.mem_filter.mp hmM
    refine ⟨h1, ?_⟩
    rw [hMeq]
    simp [h m hma (by simpa using hmm)]
  · rintro ⟨h1, hh⟩ a ha hma
    obtain ⟨m, hMeq⟩ := List.length_eq_one.mp h1
    have haM : a ∈ admins.filter (fun x => x.is_master) :=
      List.mem_filter.mpr ⟨ha, by simp [hma]⟩
    rw [hMeq] at haM hh
    simp only [List.head?_cons, Option.map_some] at hh
    rw [List.mem_singleton.mp haM]
    exact (Option.some.injEq _ _).mp hh

/-- Over a table with distinct ids and at least one master grant, all masters
belonging to `t` is also the remove handler's guard: the grant found for `t`
is a master grant and the master filter has one element. -/
theorem remove_guard_iff (admins : List Admin) (t : Nat)
    (hids : (admins.map Admin.id).Nodup) (hm : 0 < masterCount admins) :
    (∀ a ∈ admins, a.is_master = true → a.id = t) ↔
      ((admins.find? (fun a => a.id = t)).map Admin.is_master = some true ∧
        (admins.filter (fun a => a.is_master)).length = 1) := by
  constructor
  · intro h
    obtain ⟨h1, _⟩ := (masters_singleton_iff admins t hids hm).mp h
    obtain ⟨m, hMeq⟩ := List.length_eq_one.mp h1
    have hmM : m ∈ admins.filter (fun a => a.is_master) := by
      rw [hMeq]
      exact List.mem_singleton.mpr rfl
    obtain ⟨hma, hmm⟩ := List.mem_filter.mp hmM
    have hmid : m.id = t := h m hma (by simpa using hmm)
    have hsome : (admins.find? (fun a => a.id = t)).isSome :=
      List.find?_isSome.mpr ⟨m, hma, by simp [hmid]⟩
    obtain ⟨b, hb⟩ := Option.isSome_iff_exists.mp hsome
    have hbmem := List.mem_of_find?_eq_some hb
    have hbid : b.id = t := by simpa using List.find?_some hb
    have hbm : b = m :=
      List.inj_on_of_nodup_map hids hbmem hma (by rw [hbid, hmid])
    refine ⟨?_, h1⟩
    rw [hb, hbm]
    simpa using hmm
  · rintro ⟨hfind, h1⟩ a ha hma
    obtain ⟨b, hb⟩ : ∃ b, admins.find? (fun a => a.id = t) = some b := by
      cases hf : admins.find? (fun a => a.id = t) with
      | none =>
        rw [hf] at hfind
        exact absurd hfind (by simp)
      | some b => exact ⟨b, rfl⟩
    rw [hb] at hfind
    have hbma : b.is_master = true := by simpa using hfind
    have hbmem := List.mem_of_find?_eq_some hb
    have hbid : b.id = t := by simpa using List.find?_some hb
    obtain ⟨m, hMeq⟩ := List.length_eq_one.mp h1
    have haM : a ∈ admins.filter (fun x => x.is_master) :=
      List.mem_filter.mpr ⟨ha, by simp [hma]⟩
    have hbM : b ∈ admins.filter (fun x => x.is_master) :=
      List.mem_filter.mpr ⟨hbmem, by simp [hbma]⟩
    rw [hMeq] at haM hbM
    rw [List.mem_singleton.mp haM, ← List.mem_singleton.mp hbM]
    exact hbid

/-- C3 counterexample: over a grant table whose only grant is not a master
grant, removing that sole admin succeeds and empties the table, although zero
master grants remain after the removal — the guard never fires when the table
already holds no master grant, so the operation is neither rejected nor does
it leave the set unchanged. -/
theorem lastMaster_guard_gap :
    handleRemoveAdmin [⟨1, false, 0, 0⟩] 1 = .ok [] ∧
    masterCount ([] : List Admin) = 0 ∧
    ¬ ([] : List Admin) = [⟨1, false, 0, 0⟩] := by
  decide

/-- C3 (amended): over every grant table with distinct member ids holding at
least one master grant, a demote or remove whose effect would leave zero
master grants fails with the corresponding validation message and writes
nothing, and every demote or remove that succeeds leaves at least one master
grant — in particular the sole remaining master admin can never be demoted or
removed. -/
theorem lastMaster_protected (admins : List Admin) (adminId : Nat)
    (hids : (admins.map Admin.id).Nodup) (hm : 0 < masterCount admins) :
    (masterCount (demoteUpdate admins adminId) = 0 →
      handleDemoteAdmin admins adminId =
        .error (.validationError "Cannot demote the last master admin")) ∧
    (∀ l, handleDemoteAdmin admins adminId = .ok l → 0 < masterCount l) ∧
    (masterCount (removeUpdate admins adminId) = 0 →
      handleRemoveAdmin admins adminId =
        .error (.validationError "Cannot remove the last master admin")) ∧
    (∀ l, handleRemoveAdmin admins adminId = .ok l → 0 < masterCount l) := by
  refine ⟨?_, ?_, ?_, ?_⟩
  · intro hz
    have hguard := (masters_singleton_iff admins adminId hids hm).mp
      ((masterCount_demoteUpdate_eq_zero_iff admins adminId).mp hz)
    unfold handleDemoteAdmin
    rw [if_pos hguard]
  · intro l hl
    by_contra hpos
    have hz : masterCount l = 0 := by omega
    unfold handleDemoteAdmin at hl
    split at hl
    · exact absurd hl (by simp)
    · rename_i hguard
      rw [← (Except.ok.injEq _ _).mp hl] at hz
      exact hguard ((masters_singleton_iff admins adminId hids hm).mp
        ((masterCount_demoteUpdate_eq_zero_iff admins adminId).mp hz))
  · intro hz
    have hguard := (remove_guard_iff admins adminId hids hm).mp
      ((masterCount_removeUpdate_eq_zero_iff admins adminId).mp hz)
    unfold handleRemoveAdmin
    rw [if_pos hguard]
  · intro l hl
    by_contra hpos
    have hz : masterCount l = 0 := by omega
    unfold handleRemoveAdmin at hl
    split at hl
    · exact absurd hl (by simp)
    · rename_i hguard
      rw [← (Except.ok.injEq _ _).mp hl] at hz
      exact hguard ((remove_guard_iff admins adminId hids hm).mp
        ((masterCount_removeUpdate_eq_zero_iff admins adminId).mp hz))

/-- Witness for the amended C3 at concrete tables: the sole master admin can
be neither demoted nor removed, and a successful removal of a regular admin
leaves the master grant in place. -/
theorem lastMaster_protected_witness :
    handleDemoteAdmin [⟨1, true, 0, 0⟩] 1 =
      .error (.validationError "Cannot demote the last master admin") ∧
    handleRemoveAdmin [⟨1, true, 0, 0⟩] 1 =
      .error (.validationError "Cannot remove the last master admin") ∧
    (0 : Nat) < masterCount [⟨1, true, 0, 0⟩] :=
  ⟨(lastMaster_protected [⟨1, true, 0, 0⟩] 1 (by decide) (by decide)).1
      (by decide),
   (lastMaster_protected [⟨1, true, 0, 0⟩] 1 (by decide) (by decide)).2.2.1
      (by decide),
   (lastMaster_protected [⟨1, true, 0, 0⟩, ⟨2, false, 0, 0⟩] 2 (by decide)
      (by decide)).2.2.2 [⟨1, true, 0, 0⟩] (by decide)⟩

/-! ### C7: listing-creation validation -/

/-- A decimal's value is positive exactly when its mantissa is. -/
theorem Decimal.toRat_pos_iff (d : Decimal) : 0 < d.toRat ↔ 0 < d.num := by
  rw [lt_iff_not_le, d.toRat_nonpos_iff]
  omega

/-- C7 counterexample: the inline listing form of the secondary App accepts a
price of 0: every required field is present, so the submission inserts a
listing whose price value is 0 — the creation succeeded although the price is
not strictly greater than 0 and no validation error was reported. -/
theorem newListing_positivity_gap :
    newListingSubmitAlt []
        ⟨"Book", "desc", "0", "Textbooks", "new", "http://img"⟩ 9 1 0 =
      .ok [⟨1, "Book", "desc", ⟨0, 0⟩, "Textbooks", "http://img", "new", 9, 0⟩] ∧
    (⟨0, 0⟩ : Decimal).toRat = 0 := by
  constructor
  · decide
  · simp [Decimal.toRat]

/-- C7 (amended): on the NewListing page a creation succeeds exactly when
every required field is present and the price parses to a strictly positive
number — a rejected submission returns an error and inserts nothing, and a
successful one inserts exactly the submitted listing; the inline listing form
of the secondary App checks only that the fields are present and inserts the
parsed price without any positivity test. -/
theorem newListing_validation (products : List Product) (f : ListingForm)
    (sellerId nextId now : Nat) :
    ((∃ l, newListingSubmit products f sellerId nextId now = .ok l) ↔
      (¬ f.title = "" ∧ ¬ f.description = "" ∧ ¬ f.price = "" ∧
        ¬ f.category = "" ∧ ¬ f.condition = "" ∧ ¬ f.imageUrl = "" ∧
        ∃ v, parseFloat f.price = some v ∧ 0 < v.toRat)) ∧
    (∀ l, newListingSubmit products f sellerId nextId now = .ok l →
      ∃ v, parseFloat f.price = some v ∧ 0 < v.toRat ∧
        l = products ++
          [{ id := nextId, title := f.title, description := f.description,
             price := v, category := f.category, image_url := f.imageUrl,
             condition := f.condition, seller_id := sellerId,
             created_at := now }]) ∧
    (∀ l, newListingSubmitAlt products f sellerId nextId now = .ok l →
      ∃ v, parseFloat f.price = some v ∧
        l = products ++
          [{ id := nextId, title := f.title, description := f.description,
             price := v, category := f.category, image_url := f.imageUrl,
             condition := f.condition, seller_id := sellerId,
             created_at := now }]) := by
  refine ⟨⟨?_, ?_⟩, ?_, ?_⟩
  · rintro ⟨l, hl⟩
    unfold newListingSubmit at hl
    split at hl
    · exact absurd hl (by simp)
    · split at hl
      · exact absurd hl (by simp)
      · rename_i hfields himg
        push_neg at hfields
        obtain ⟨h1, h2, h3, h4, h5⟩ := hfields
        split at hl
        · exact absurd hl (by simp)
        · rename_i v hv
          split at hl
          · exact absurd hl (by simp)
          · rename_i hnum
            exact ⟨h1, h2, h3, h4, h5, himg, v, hv,
              (Decimal.toRat_pos_iff v).mpr (by omega)⟩
  · rintro ⟨h1, h2, h3, h4, h5, h6, v, hv, hpos⟩
    unfold newListingSubmit
    rw [if_neg (by simp [h1, h2, h3, h4, h5]), if_neg h6]
    simp only [hv]
    rw [if_neg (by
      have := (Decimal.toRat_pos_iff v).mp hpos
      omega)]
    exact ⟨_, rfl⟩
  · intro l hl
    unfold newListingSubmit at hl
    split at hl
    · exact absurd hl (by simp)
    · split at hl
      · exact absurd hl (by simp)
      · split at hl
        · exact absurd hl (by simp)
        · rename_i v hv
          split at hl
          · exact absurd hl (by simp)
          · rename_i hnum
            exact ⟨v, hv, (Decimal.toRat_pos_iff v).mpr (by omega),
              ((Except.ok.injEq _ _).mp hl).symm⟩
  · intro l hl
    unfold newListingSubmitAlt at hl
    split at hl
    · exact absurd hl (by simp)
    · split at hl
      · exact absurd hl (by simp)
      · rename_i v hv
        exact ⟨v, hv, ((Except.ok.injEq _ _).mp hl).symm⟩

/-- Witness for the amended C7 at concrete submissions: a complete form with
price 500 creates a listing on the NewListing page, and the inline variant
inserts the parsed price 0 without a positivity test. -/
theorem newListing_validation_witness :
    (∃ l, newListingSubmit []
        ⟨"Book", "desc", "500", "Textbooks", "new", "http://img"⟩ 9 1 0 =
      .ok l) ∧
    (∃ v, parseFloat "0" = some v ∧
      [(⟨1, "Book", "desc", ⟨0, 0⟩, "Textbooks", "http://img", "new", 9, 0⟩ :
          Product)] =
        [] ++
          [{ id := 1, title := "Book", description := "desc", price := v,
             category := "Textbooks", image_url := "http://img",
             condition := "new", seller_id := 9, created_at := 0 }]) :=
  ⟨(newListing_validation []
      ⟨"Book", "desc", "500", "Textbooks", "new", "http://img"⟩ 9 1 0).1.mpr
      ⟨by decide, by decide, by decide, by decide, by decide, by decide,
       ⟨500, 0⟩, by decide, (Decimal.toRat_pos_iff ⟨500, 0⟩).mpr (by decide)⟩,
   (newListing_validation []
      ⟨"Book", "desc", "0", "Textbooks", "new", "http://img"⟩ 9 1 0).2.2
      [⟨1, "Book", "desc", ⟨0, 0⟩, "Textbooks", "http://img", "new", 9, 0⟩]
      (by decide)⟩

end UniHive
